import Mathlib

/-
Verification of web-audio-api-rs against its specification.

Shallow embedding of:
  src/media/mic.rs        (Microphone capture stream and producer)
  src/node/iir_filter.rs  (IirFilterNode and IirFilterRenderer)

Sample values (Rust f32) are modelled as rationals: the capture path performs
no arithmetic on samples beyond conversion and zero fill, and the filter tick
uses only field operations, so the exact rational model is faithful to the
data flow being verified.  The transcendental biquad coefficient formulas
(cos, sin, powf) are excluded DSP per the specification, section 1, and are
abstracted as an explicit coefficient-function parameter.
-/

/-- Quantum size, 128 frames (specification, section 6: constants). -/
def RENDER_QUANTUM_SIZE : Nat := 128

/-- Options for constructing an AudioBuffer (src/media/mic.rs lines 157-161). -/
structure AudioBufferOptions where
  number_of_channels : Nat
  length : Nat
  sample_rate : ℚ
deriving DecidableEq

/-- An audio buffer: an ordered sequence of per-channel sample vectors
(specification, section 3). -/
structure AudioBuffer where
  channels : List (List ℚ)
  sample_rate : ℚ
deriving DecidableEq

/-- Modelled from the spec: `AudioBuffer::new` lives in src/buffer.rs which is
not under src/.  The spec, section 4.6, says the consumer, on empty, "synthesizes
a buffer of correct channel/length shape filled with silence", and section 8
describes it as "a silent buffer of the expected channel count and length
(e.g., 2 channels x 128 frames of zeros)". -/
def AudioBuffer.new (options : AudioBufferOptions) : AudioBuffer :=
  { channels := List.replicate options.number_of_channels
      (List.replicate options.length 0)
    sample_rate := options.sample_rate }

/-- Modelled from the spec: `AudioBuffer::from_channels` (src/buffer.rs is not
under src/) wraps the given per-channel vectors into a buffer
(specification, section 3: an AudioBuffer is an ordered sequence of
per-channel sample vectors). -/
def AudioBuffer.from_channels (channels : List (List ℚ)) (sample_rate : ℚ) :
    AudioBuffer :=
  { channels := channels, sample_rate := sample_rate }

/-- Result of crossbeam `Receiver::try_recv`. -/
inductive TryRecvResult (α : Type) where
  | ok (a : α)
  | empty
  | disconnected
deriving DecidableEq

/-- Semantics of crossbeam `Receiver::try_recv` on a buffered channel: return
the oldest queued message if any; `Empty` when none is queued and the sender
side is still alive; `Disconnected` when none is queued and every sender has
been dropped (buffered messages remain receivable after disconnection). -/
def channelTryRecv (queue : List α) (senderAlive : Bool) :
    TryRecvResult α × List α :=
  match queue, senderAlive with
  | x :: xs, _ => (.ok x, xs)
  | [], true => (.empty, [])
  | [], false => (.disconnected, [])

/-- State of a MicrophoneStream (src/media/mic.rs lines 136-142): the receiver
end of the capture channel (its queued buffers plus whether the producing
MicrophoneRender is still alive) and the declared stream shape. -/
structure MicrophoneStream where
  queue : List AudioBuffer
  connected : Bool
  number_of_channels : Nat
  sample_rate : ℚ
deriving DecidableEq

/-- MicrophoneStream::next (src/media/mic.rs lines 147-172): one non-blocking
receive; on success forward the buffer, on empty synthesize a silent buffer of
the declared shape, on disconnection end the stream (return none). -/
def MicrophoneStream.next (s : MicrophoneStream) :
    Option (Except Unit AudioBuffer) × MicrophoneStream :=
  match channelTryRecv s.queue s.connected with
  | (.ok buffer, rest) => (some (.ok buffer), { s with queue := rest })
  | (.empty, _) =>
      (some (.ok (AudioBuffer.new
        { number_of_channels := s.number_of_channels
          length := RENDER_QUANTUM_SIZE
          sample_rate := s.sample_rate })), s)
  | (.disconnected, _) => (none, s)

/-- A bounded channel viewed from its sender side: capacity and queued items. -/
structure BoundedQueue (α : Type) where
  cap : Nat
  items : List α
deriving DecidableEq

/-- Semantics of crossbeam `Sender::try_send` on a bounded channel: append the
message when the queue has room and succeed, otherwise leave the queue
unchanged and fail, never blocking. -/
def BoundedQueue.trySend (q : BoundedQueue α) (x : α) : BoundedQueue α × Bool :=
  if q.items.length < q.cap then ({ q with items := q.items ++ [x] }, true)
  else (q, false)

/-- Rust `Iterator::step_by n` (n positive): yield the current element, then
skip n - 1 elements, repeatedly. -/
def stepBy (n : Nat) : List α → List α
  | [] => []
  | x :: xs => x :: stepBy n (xs.drop (n - 1))
termination_by l => l.length
decreasing_by simp only [List.length_drop, List.length_cons]; omega

/-- State of a MicrophoneRender (src/media/mic.rs lines 175-179), minus the
sender handle which is passed explicitly as a queue below. -/
structure MicrophoneRender where
  number_of_channels : Nat
  sample_rate : ℚ
deriving DecidableEq

/-- The per-channel deinterleaved data built by MicrophoneRender::render
(src/media/mic.rs lines 191-202): for each i in 0..number_of_channels, collect
data.iter().skip(i).step_by(number_of_channels).map(to_f32).  The `to_f32`
sample conversion is the trait method of the generic parameter S and is
modelled as the explicit function argument toF32. -/
def MicrophoneRender.renderChannels (r : MicrophoneRender) (toF32 : S → ℚ)
    (data : List S) : List (List ℚ) :=
  (List.range r.number_of_channels).map
    (fun i => (stepBy r.number_of_channels (data.drop i)).map toF32)

/-- The AudioBuffer built by MicrophoneRender::render (src/media/mic.rs line
204). -/
def MicrophoneRender.renderBuffer (r : MicrophoneRender) (toF32 : S → ℚ)
    (data : List S) : AudioBuffer :=
  AudioBuffer.from_channels (r.renderChannels toF32 data) r.sample_rate

/-- MicrophoneRender::render (src/media/mic.rs lines 190-209): deinterleave the
hardware data into a buffer and attempt exactly one non-blocking send into the
bounded capture queue; the boolean is true when the buffer was enqueued and
false when it was dropped (the source then only logs the drop). -/
def MicrophoneRender.render (r : MicrophoneRender) (toF32 : S → ℚ)
    (data : List S) (q : BoundedQueue AudioBuffer) :
    BoundedQueue AudioBuffer × Bool :=
  q.trySend (r.renderBuffer toF32 data)

/-- Repeated hardware callbacks: run MicrophoneRender::render once per data
slice, threading the capture queue through and counting dropped buffers. -/
def MicrophoneRender.renderAll (r : MicrophoneRender) (toF32 : S → ℚ)
    (q : BoundedQueue AudioBuffer) : List (List S) →
    BoundedQueue AudioBuffer × Nat
  | [] => (q, 0)
  | d :: ds =>
    let step := r.render toF32 d q
    let rest := r.renderAll toF32 step.1 ds
    (rest.1, (if step.2 then 0 else 1) + rest.2)

/-- The eight biquad filter types (src/node/iir_filter.rs usage), in Rust
declaration order. -/
inductive IirFilterType where
  | lowpass
  | highpass
  | bandpass
  | notch
  | allpass
  | peaking
  | lowshelf
  | highshelf
deriving DecidableEq

/-- Modelled from the spec: the declaration of the `IirFilterType` enum and its
`u32` conversions are repository code not under src/ (src/node/iir_filter.rs
only uses them).  Rust gives a fieldless enum declaration-order discriminants,
so `type_ as u32` is the index 0..7. -/
def IirFilterType.toU32 : IirFilterType → Nat
  | .lowpass => 0
  | .highpass => 1
  | .bandpass => 2
  | .notch => 3
  | .allpass => 4
  | .peaking => 5
  | .lowshelf => 6
  | .highshelf => 7

/-- Modelled from the spec: the `From` conversion from `u32` back to
`IirFilterType` is repository code not under src/; the spec, section 9,
describes the flag as "an atomically-updated tagged value" whose stored tag
selects the processing mode, so the conversion maps each discriminant back to
its variant (out-of-range values, never stored by the node, default to the
first variant). -/
def IirFilterType.ofU32 : Nat → IirFilterType
  | 0 => .lowpass
  | 1 => .highpass
  | 2 => .bandpass
  | 3 => .notch
  | 4 => .allpass
  | 5 => .peaking
  | 6 => .lowshelf
  | 7 => .highshelf
  | _ => .lowpass

/-- IirFilterNode::set_type (src/node/iir_filter.rs lines 201-203): the u32
value stored into the shared AtomicU32 control flag. -/
def IirFilterNode.set_type (type_ : IirFilterType) : Nat :=
  type_.toU32

/-- IirFilterNode::type_ (src/node/iir_filter.rs lines 192-194): load the
shared AtomicU32 control flag and convert it back into an IirFilterType. -/
def IirFilterNode.type_ (cell : Nat) : IirFilterType :=
  IirFilterType.ofU32 cell

/-- Biquad filter coefficients (src/node/iir_filter.rs lines 270-281). -/
structure Coefficients where
  a0 : ℚ
  a1 : ℚ
  a2 : ℚ
  b0 : ℚ
  b1 : ℚ
  b2 : ℚ
deriving DecidableEq

/-- Parameter values consumed by the filter (src/node/iir_filter.rs lines
250-256). -/
structure Params where
  q : ℚ
  detune : ℚ
  frequency : ℚ
  gain : ℚ
  type_ : IirFilterType
deriving DecidableEq

/-- Mutable state of an IirFilterRenderer (src/node/iir_filter.rs lines
283-294): the per-channel delay lines ss1/ss2 and the current coefficients. -/
structure IirFilterRenderer where
  ss1 : List ℚ
  ss2 : List ℚ
  coeffs : Coefficients
deriving DecidableEq

/-- IirFilterRenderer::tail_time (src/node/iir_filter.rs lines 326-328):
unconditionally false. -/
def IirFilterRenderer.tail_time (_ : IirFilterRenderer) : Bool :=
  false

/-- IirFilterRenderer::tick (src/node/iir_filter.rs lines 409-417): one sample
of the transposed direct-form-II biquad on the delay line of channel idx. -/
def IirFilterRenderer.tick (s : IirFilterRenderer) (input : ℚ) (idx : Nat) :
    ℚ × IirFilterRenderer :=
  let out := s.ss1.getD idx 0 + (s.coeffs.b0 / s.coeffs.a0) * input
  let ss1 := s.ss1.set idx (s.ss2.getD idx 0 + (s.coeffs.b1 / s.coeffs.a0) * input
    - (s.coeffs.a1 / s.coeffs.a0) * out)
  let ss2 := s.ss2.set idx ((s.coeffs.b2 / s.coeffs.a0) * input
    - (s.coeffs.a2 / s.coeffs.a0) * out)
  (out, { s with ss1 := ss1, ss2 := ss2 })

/-- The inner sample loop of IirFilterRenderer::filter (src/node/iir_filter.rs
lines 397-399): tick every sample of one channel in order, threading the
renderer state. -/
def IirFilterRenderer.runChannel (s : IirFilterRenderer) (idx : Nat) :
    List ℚ → List ℚ × IirFilterRenderer
  | [] => ([], s)
  | x :: xs =>
    let first := s.tick x idx
    let rest := first.2.runChannel idx xs
    (first.1 :: rest.1, rest.2)

/-- The outer channel loop of IirFilterRenderer::filter (src/node/iir_filter.rs
lines 391-400): process the channels in order, each with its own delay-line
index. -/
def IirFilterRenderer.runChannels (s : IirFilterRenderer) (idx : Nat) :
    List (List ℚ) → List (List ℚ) × IirFilterRenderer
  | [] => ([], s)
  | ch :: chs =>
    let first := s.runChannel idx ch
    let rest := first.2.runChannels (idx + 1) chs
    (first.1 :: rest.1, rest.2)

/-- Status of the requester end of the zero-capacity reply channel at the
moment the render thread tries to deliver an answer. -/
inductive ReceiverStatus where
  | waiting
  | notWaiting
  | dropped
deriving DecidableEq

/-- Outcome of crossbeam `Sender::send`. -/
inductive SendOutcome where
  | delivered
  | blocks
  | errDisconnected
deriving DecidableEq

/-- Semantics of crossbeam `Sender::send` on a zero-capacity (rendezvous)
channel, as created by `crossbeam_channel::bounded(0)` in
IirFilterNode::get_frequency_response line 218: delivery succeeds immediately
only when a receiver is blocked in a receive operation; otherwise the send
blocks until a receive appears; when the receiver was dropped the send
returns a SendError. -/
def rendezvousSend : ReceiverStatus → SendOutcome
  | .waiting => .delivered
  | .notWaiting => .blocks
  | .dropped => .errDisconnected

/-- What happens on the render thread in one side-channel poll. -/
inductive RenderPollResult where
  | noRequest
  | answered
  | blocked
  | panics
deriving DecidableEq

/-- The side-channel step of IirFilterRenderer::filter (src/node/iir_filter.rs
lines 385-389): one non-blocking `try_recv` of the request channel; if a
CoeffsReq is pending, reply with `sender.send(coeffs_resp).unwrap()` on the
embedded zero-capacity reply channel.  The pending argument is the result of
the poll: none when the request channel was empty, some rs when a request was
received whose reply receiver currently has status rs. -/
def IirFilterRenderer.sideChannelPoll (pending : Option ReceiverStatus) :
    RenderPollResult :=
  match pending with
  | none => .noRequest
  | some rs =>
    match rendezvousSend rs with
    | .delivered => .answered
    | .blocks => .blocked
    | .errDisconnected => .panics

/-- Side-channel operations performed by one IirFilterRenderer::filter call. -/
inductive ChannelOp where
  | tryRecvRequest
  | sendReply
deriving DecidableEq

/-- The sequence of side-channel operations one IirFilterRenderer::filter call
performs (src/node/iir_filter.rs lines 385-389): always exactly one try_recv,
followed by one reply send only when a request was pending. -/
def IirFilterRenderer.sideChannelOps (pending : Bool) : List ChannelOp :=
  if pending then [.tryRecvRequest, .sendReply] else [.tryRecvRequest]

/-- IirFilterRenderer::filter (src/node/iir_filter.rs lines 370-401): update
the coefficients from the params once per call (source comment: todo A-rate),
poll the side channel, then run every channel sample by sample.  The coeffFn
argument abstracts update_coeffs, the transcendental f32 coefficient formulas
at a fixed sample rate (excluded DSP math per the specification, section 1). -/
def IirFilterRenderer.filter (coeffFn : Params → Coefficients)
    (s : IirFilterRenderer) (input : List (List ℚ)) (params : Params)
    (pending : Option ReceiverStatus) :
    List (List ℚ) × IirFilterRenderer × RenderPollResult :=
  let s1 : IirFilterRenderer := { s with coeffs := coeffFn params }
  let poll := IirFilterRenderer.sideChannelPoll pending
  let run := s1.runChannels 0 input
  (run.1, run.2, poll)

/-- IirFilterRenderer::process (src/node/iir_filter.rs lines 297-324): take the
evaluated a-rate parameter blocks, build a single Params value from index 0 of
each block (q_values[0], det_values[0], freq_values[0], g_values[0]) and the
atomic type flag, and call filter with it. -/
def IirFilterRenderer.process (coeffFn : Params → Coefficients)
    (s : IirFilterRenderer)
    (q_values det_values freq_values g_values : List ℚ)
    (type_ : IirFilterType) (input : List (List ℚ))
    (pending : Option ReceiverStatus) :
    List (List ℚ) × IirFilterRenderer × RenderPollResult :=
  IirFilterRenderer.filter coeffFn s input
    { q := q_values.getD 0 0
      detune := det_values.getD 0 0
      frequency := freq_values.getD 0 0
      gain := g_values.getD 0 0
      type_ := type_ } pending

/-- One poll of the reply channel by the requester. -/
inductive ReplyPoll where
  | gotReply
  | empty
  | disconnected
deriving DecidableEq

/-- One step of the requester loop. -/
inductive RequesterStep where
  | computeResponses
  | spinAgain
  | panics
deriving DecidableEq

/-- The body of the busy-wait loop in IirFilterNode::get_frequency_response
(src/node/iir_filter.rs lines 221-246): on Disconnected the code panics, on
Empty it prints and continues spinning, on a reply it computes the responses
and breaks. -/
def IirFilterNode.replyLoopStep : ReplyPoll → RequesterStep
  | .disconnected => .panics
  | .empty => .spinAgain
  | .gotReply => .computeResponses

/-- Rust slice element assignment `l[i] = v` as used on the output slices of
get_frequency_response: in bounds it updates the element, out of bounds it
panics (modelled as none). -/
def setAt (l : List ℚ) (i : Nat) (v : ℚ) : Option (List ℚ) :=
  if i < l.length then some (l.set i v) else none

/-- The response-writing loop of IirFilterNode::get_frequency_response
(src/node/iir_filter.rs lines 230-242), started at index i: for each (i, f) in
frequency_hz.iter().enumerate(), assign mag_response[i] and phase_response[i];
the resp argument abstracts the complex-arithmetic computation of
(magnitude, phase) of H(f) from the received coefficients (transcendental f32
math, excluded DSP per the specification, section 1).  A panic aborts the
loop, modelled as none. -/
def writeResponses (resp : ℚ → ℚ × ℚ) :
    Nat → List ℚ → List ℚ → List ℚ → Option (List ℚ × List ℚ)
  | _, [], mag, phase => some (mag, phase)
  | i, f :: fs, mag, phase =>
    match setAt mag i (resp f).1 with
    | none => none
    | some m =>
      match setAt phase i (resp f).2 with
      | none => none
      | some p => writeResponses resp (i + 1) fs m p

/-- The write phase of IirFilterNode::get_frequency_response (src/node/
iir_filter.rs lines 230-242), i.e. the Ok branch of the receive loop: the
enumeration starts at index 0. -/
def IirFilterNode.get_frequency_response (resp : ℚ → ℚ × ℚ)
    (frequency_hz mag_response phase_response : List ℚ) :
    Option (List ℚ × List ℚ) :=
  writeResponses resp 0 frequency_hz mag_response phase_response

/-- C8: the node processing mode stored in the shared atomic control flag
round-trips: for every filter type t, set_type t followed by type_ (with no
intervening write) returns exactly t; the enum-to-u32-to-enum conversion
through the atomic is the identity on all eight variants. -/
theorem iirType_atomic_roundtrip :
    ∀ t : IirFilterType, IirFilterNode.type_ (IirFilterNode.set_type t) = t := by
  intro t
  cases t <;> rfl

/-- C2 counterexample: when a coefficient request is pending but the requester
is not yet blocked in a receive on the reply channel, the reply send performed
by IirFilterRenderer::filter is a rendezvous send on a zero-capacity channel
and blocks the render thread, refuting the claim that a missing reply never
blocks rendering. -/
theorem iirSideChannel_blocks_cex :
    IirFilterRenderer.sideChannelPoll (some ReceiverStatus.notWaiting) =
      RenderPollResult.blocked := by
  decide

/-- C2 amended: every filter invocation performs exactly one non-blocking poll
of the request channel and sends at most one reply; with no pending request
rendering is never blocked, and with a pending request whose requester is
already blocked in a receive the answer is delivered immediately; but when a
request is pending and the requester is not yet receiving, the zero-capacity
reply send blocks the render thread until the requester receives. -/
theorem iirSideChannel_poll_amended :
    (∀ p : Bool,
      (IirFilterRenderer.sideChannelOps p).count ChannelOp.tryRecvRequest = 1 ∧
      (IirFilterRenderer.sideChannelOps p).count ChannelOp.sendReply ≤ 1) ∧
    IirFilterRenderer.sideChannelPoll none = RenderPollResult.noRequest ∧
    IirFilterRenderer.sideChannelPoll (some ReceiverStatus.waiting) =
      RenderPollResult.answered ∧
    IirFilterRenderer.sideChannelPoll (some ReceiverStatus.notWaiting) =
      RenderPollResult.blocked := by
  decide

/-- C5 counterexample: disconnection of the reply channel is observed as a
failure on both sides, refuting the claim: the requester loop of
get_frequency_response panics when try_recv reports Disconnected, and the
render-thread responder panics (unwrap of a failed send) when the requester
has dropped the reply receiver. -/
theorem iirReplyDisconnect_panics_cex :
    IirFilterNode.replyLoopStep ReplyPoll.disconnected = RequesterStep.panics ∧
    IirFilterRenderer.sideChannelPoll (some ReceiverStatus.dropped) =
      RenderPollResult.panics := by
  decide

/-- C5 amended: only the Empty case of the reply poll is treated as "no answer
yet" (the requester spins and re-polls); dropping the reply channel is turned
into a failure on both sides: the requester panics on observing disconnection
and the render-thread responder panics when the reply receiver was dropped. -/
theorem iirReplyDisconnect_amended :
    IirFilterNode.replyLoopStep ReplyPoll.empty = RequesterStep.spinAgain ∧
    IirFilterNode.replyLoopStep ReplyPoll.gotReply =
      RequesterStep.computeResponses ∧
    IirFilterNode.replyLoopStep ReplyPoll.disconnected = RequesterStep.panics ∧
    IirFilterRenderer.sideChannelPoll (some ReceiverStatus.dropped) =
      RenderPollResult.panics := by
  decide

/-- C6: evidence for the code bug.  Two a-rate q-parameter blocks that agree at
index 0 but differ at sample 1 produce identical process output, state and
coefficients (here with a coefficient function that depends on q), because
IirFilterRenderer::process builds its Params from q_values[0] only and the
coefficients are held for the whole 128-frame block (source comment: todo
A-rate); the per-sample trajectory beyond index 0 is ignored. -/
theorem iirProcess_ignores_perSample_values :
    (IirFilterRenderer.process
        (fun p => { a0 := 1, a1 := 0, a2 := 0, b0 := p.q, b1 := 0, b2 := 0 })
        { ss1 := [0], ss2 := [0],
          coeffs := { a0 := 1, a1 := 0, a2 := 0, b0 := 1, b1 := 0, b2 := 0 } }
        [1, 2] [0, 0] [350, 350] [0, 0] IirFilterType.lowpass [[1, 1]] none =
      IirFilterRenderer.process
        (fun p => { a0 := 1, a1 := 0, a2 := 0, b0 := p.q, b1 := 0, b2 := 0 })
        { ss1 := [0], ss2 := [0],
          coeffs := { a0 := 1, a1 := 0, a2 := 0, b0 := 1, b1 := 0, b2 := 0 } }
        [1, 5] [0, 0] [350, 350] [0, 0] IirFilterType.lowpass [[1, 1]] none) ∧
    List.getD [(1 : ℚ), 2] 1 0 ≠ List.getD [(1 : ℚ), 5] 1 0 := by
  constructor
  · norm_num [IirFilterRenderer.process, IirFilterRenderer.filter,
      IirFilterRenderer.runChannels, IirFilterRenderer.runChannel,
      IirFilterRenderer.tick, IirFilterRenderer.sideChannelPoll, List.getD]
  · norm_num [List.getD]

/-- C7: evidence for the code bug.  A renderer whose delay line still holds
energy (ss1 = [1]) produces nonzero output and retains nonzero ss1 state when
fed a silent channel (its impulse response is still decaying), yet
IirFilterRenderer::tail_time reports false, so the node would not be kept
scheduled while its tail dies out. -/
theorem iirTailTime_false_despite_decay :
    IirFilterRenderer.tail_time
      { ss1 := [1], ss2 := [0],
        coeffs := { a0 := 1, a1 := -(1/2), a2 := 0, b0 := 1, b1 := 0, b2 := 0 } }
      = false ∧
    (IirFilterRenderer.runChannel
      { ss1 := [1], ss2 := [0],
        coeffs := { a0 := 1, a1 := -(1/2), a2 := 0, b0 := 1, b1 := 0, b2 := 0 } }
      0 [0, 0, 0]).1 ≠ [0, 0, 0] ∧
    (IirFilterRenderer.runChannel
      { ss1 := [1], ss2 := [0],
        coeffs := { a0 := 1, a1 := -(1/2), a2 := 0, b0 := 1, b1 := 0, b2 := 0 } }
      0 [0, 0, 0]).2.ss1 ≠ [0] := by
  refine ⟨rfl, ?_, ?_⟩
  · norm_num [IirFilterRenderer.runChannel, IirFilterRenderer.tick, List.getD]
  · norm_num [IirFilterRenderer.runChannel, IirFilterRenderer.tick, List.getD]

/-- C1: while the producer side is still connected, MicrophoneStream::next
always yields some buffer: a queued buffer is forwarded as received, and on an
empty queue a synthesized buffer with exactly the declared channel count and
exactly RENDER_QUANTUM_SIZE (128) all-zero frames per channel is returned; a
quantum is never skipped. -/
theorem micStream_next_connected_total (s : MicrophoneStream)
    (h : s.connected = true) :
    (∀ b rest, s.queue = b :: rest →
      s.next.1 = some (Except.ok b) ∧ s.next.2.queue = rest) ∧
    (s.queue = [] → ∃ b, s.next.1 = some (Except.ok b) ∧
      b.channels = List.replicate s.number_of_channels
        (List.replicate RENDER_QUANTUM_SIZE 0)) ∧
    s.next.1 ≠ none := by
  refine ⟨?_, ?_, ?_⟩
  · intro b rest hq
    constructor
    · simp [MicrophoneStream.next, channelTryRecv, hq]
    · simp [MicrophoneStream.next, channelTryRecv, hq]
  · intro hq
    refine ⟨AudioBuffer.new
      { number_of_channels := s.number_of_channels,
        length := RENDER_QUANTUM_SIZE, sample_rate := s.sample_rate }, ?_, rfl⟩
    simp [MicrophoneStream.next, channelTryRecv, hq, h]
  · cases hq : s.queue with
    | nil => simp [MicrophoneStream.next, channelTryRecv, hq, h]
    | cons b rest => simp [MicrophoneStream.next, channelTryRecv, hq]

/-- Witness for C1 at a concrete stream: connected, empty queue, 2 channels. -/
theorem micStream_next_connected_total_witness :
    (MicrophoneStream.mk [] true 2 44100).connected = true ∧
    (MicrophoneStream.mk [] true 2 44100).next.1 ≠ none :=
  ⟨rfl, (micStream_next_connected_total (MicrophoneStream.mk [] true 2 44100)
    rfl).2.2⟩

/-- C4: when the producing MicrophoneRender has been dropped and the channel is
observed disconnected (no buffered message remains), MicrophoneStream::next
returns none, a graceful end of stream; moreover next never returns an error
value in any state. -/
theorem micStream_next_disconnected_end (s : MicrophoneStream)
    (hc : s.connected = false) (hq : s.queue = []) :
    s.next.1 = none ∧
    ∀ (t : MicrophoneStream) (e : Unit),
      t.next.1 ≠ some (Except.error e) := by
  constructor
  · simp [MicrophoneStream.next, channelTryRecv, hq, hc]
  · intro t e
    cases hq2 : t.queue with
    | nil =>
      cases hc2 : t.connected with
      | false => simp [MicrophoneStream.next, channelTryRecv, hq2, hc2]
      | true => simp [MicrophoneStream.next, channelTryRecv, hq2, hc2]
    | cons b rest => simp [MicrophoneStream.next, channelTryRecv, hq2]

/-- Witness for C4 at a concrete disconnected, drained stream. -/
theorem micStream_next_disconnected_end_witness :
    (MicrophoneStream.mk [] false 1 48000).connected = false ∧
    (MicrophoneStream.mk [] false 1 48000).next.1 = none :=
  ⟨rfl, (micStream_next_disconnected_end (MicrophoneStream.mk [] false 1 48000)
    rfl rfl).1⟩

/-- Helper: running the capture producer over a list of hardware callbacks
fills the bounded queue in arrival order up to its remaining room and drops
exactly the overflow, one buffer per failed non-blocking send. -/
theorem renderAll_items_drops {S : Type} (r : MicrophoneRender)
    (toF32 : S → ℚ) :
    ∀ (ds : List (List S)) (q : BoundedQueue AudioBuffer),
      q.items.length ≤ q.cap →
      (r.renderAll toF32 q ds).1.cap = q.cap ∧
      (r.renderAll toF32 q ds).1.items =
        q.items ++ (ds.map (r.renderBuffer toF32)).take
          (q.cap - q.items.length) ∧
      (r.renderAll toF32 q ds).2 =
        ds.length - (q.cap - q.items.length) := by
  intro ds
  induction ds with
  | nil =>
    intro q hq
    simp [MicrophoneRender.renderAll]
  | cons d ds ih =>
    intro q hq
    by_cases hlt : q.items.length < q.cap
    · have hstep : r.render toF32 d q =
          (BoundedQueue.mk q.cap (q.items ++ [r.renderBuffer toF32 d]), true) := by
        simp [MicrophoneRender.render, BoundedQueue.trySend, hlt]
      have hlen : (BoundedQueue.mk q.cap
          (q.items ++ [r.renderBuffer toF32 d])).items.length ≤
          (BoundedQueue.mk q.cap (q.items ++ [r.renderBuffer toF32 d])).cap := by
        simp only [List.length_append, List.length_singleton]
        omega
      have hih := ih (BoundedQueue.mk q.cap
        (q.items ++ [r.renderBuffer toF32 d])) hlen
      have hr1 : (r.renderAll toF32 q (d :: ds)).1 =
          (r.renderAll toF32 (BoundedQueue.mk q.cap
            (q.items ++ [r.renderBuffer toF32 d])) ds).1 := by
        simp only [MicrophoneRender.renderAll, hstep]
      have hr2 : (r.renderAll toF32 q (d :: ds)).2 =
          (r.renderAll toF32 (BoundedQueue.mk q.cap
            (q.items ++ [r.renderBuffer toF32 d])) ds).2 := by
        simp only [MicrophoneRender.renderAll, hstep]
        simp
      refine ⟨?_, ?_, ?_⟩
      · rw [hr1]
        exact hih.1
      · rw [hr1, hih.2.1]
        have hsc : q.cap - q.items.length =
            (q.cap - (q.items.length + 1)) + 1 := by omega
        simp only [List.length_append, List.length_singleton, List.map_cons,
          hsc, List.take_succ_cons, List.append_assoc, List.singleton_append]
      · rw [hr2, hih.2.2]
        simp only [List.length_append, List.length_singleton, List.length_cons,
          List.length_nil]
        omega
    · have hstep : r.render toF32 d q = (q, false) := by
        simp [MicrophoneRender.render, BoundedQueue.trySend, hlt]
      have hih := ih q hq
      have hz : q.cap - q.items.length = 0 := by omega
      have hr1 : (r.renderAll toF32 q (d :: ds)).1 =
          (r.renderAll toF32 q ds).1 := by
        simp only [MicrophoneRender.renderAll, hstep]
      have hr2 : (r.renderAll toF32 q (d :: ds)).2 =
          1 + (r.renderAll toF32 q ds).2 := by
        simp only [MicrophoneRender.renderAll, hstep]
        simp
      refine ⟨?_, ?_, ?_⟩
      · rw [hr1]
        exact hih.1
      · rw [hr1, hih.2.1]
        simp [hz]
      · rw [hr2, hih.2.2]
        simp only [hz, List.length_cons]
        omega

/-- C3: producing C+1 buffers through MicrophoneRender::render into an empty
capture queue of capacity C, before any consumption, retains the first C
produced buffers in arrival order and drops exactly one buffer; each render
performs a single non-blocking try_send that is never retried. -/
theorem micRender_backpressure_drops_one {S : Type} (r : MicrophoneRender)
    (toF32 : S → ℚ) (C : Nat) (datas : List (List S))
    (h : datas.length = C + 1) :
    (r.renderAll toF32 (BoundedQueue.mk C []) datas).1.items =
      (datas.map (r.renderBuffer toF32)).take C ∧
    (r.renderAll toF32 (BoundedQueue.mk C []) datas).2 = 1 := by
  have hg := renderAll_items_drops r toF32 datas (BoundedQueue.mk C [])
    (by simp)
  refine ⟨?_, ?_⟩
  · have := hg.2.1
    simpa using this
  · have := hg.2.2
    simp only [h] at this
    simpa using this

/-- Witness for C3 at a concrete run: capacity 1, two produced buffers. -/
theorem micRender_backpressure_drops_one_witness :
    ([[(1 : ℚ)], [2]].length = 1 + 1) ∧
    ((MicrophoneRender.mk 1 48000).renderAll id
      (BoundedQueue.mk 1 []) [[(1 : ℚ)], [2]]).2 = 1 :=
  ⟨rfl, (micRender_backpressure_drops_one (MicrophoneRender.mk 1 48000) id 1
    [[(1 : ℚ)], [2]] rfl).2⟩

/-- Helper: element j of the step-by-n view of a list is element j * n of the
list. -/
theorem stepBy_getElem? {α : Type} (n : Nat) (hn : 0 < n) :
    ∀ (l : List α) (j : Nat), (stepBy n l)[j]? = l[j * n]? := by
  have main : ∀ (N : Nat) (l : List α), l.length ≤ N → ∀ (j : Nat),
      (stepBy n l)[j]? = l[j * n]? := by
    intro N
    induction N with
    | zero =>
      intro l hl j
      have hnil : l = [] := List.length_eq_zero.mp (Nat.le_zero.mp hl)
      subst hnil
      simp [stepBy]
    | succ N ih =>
      intro l hl j
      cases l with
      | nil => simp [stepBy]
      | cons x xs =>
        simp only [stepBy]
        cases j with
        | zero => simp
        | succ j =>
          have hrec : (xs.drop (n - 1)).length ≤ N := by
            simp only [List.length_drop]
            simp only [List.length_cons] at hl
            omega
          rw [List.getElem?_cons_succ, ih (xs.drop (n - 1)) hrec j,
            List.getElem?_drop]
          have h1 : (j + 1) * n = j * n + n := Nat.succ_mul j n
          have harith : (j + 1) * n = (n - 1 + j * n) + 1 := by omega
          rw [harith, List.getElem?_cons_succ]
  intro l j
  exact main l.length l (Nat.le_refl _) j

/-- Helper: the step-by-n view of a list has its length divided by n, rounded
up. -/
theorem stepBy_length {α : Type} (n : Nat) (hn : 0 < n) :
    ∀ (l : List α), (stepBy n l).length = (l.length + n - 1) / n := by
  have main : ∀ (N : Nat) (l : List α), l.length ≤ N →
      (stepBy n l).length = (l.length + n - 1) / n := by
    intro N
    induction N with
    | zero =>
      intro l hl
      have hnil : l = [] := List.length_eq_zero.mp (Nat.le_zero.mp hl)
      subst hnil
      have h2 : (List.length ([] : List α) + n - 1) / n = 0 :=
        Nat.div_eq_of_lt (by simp only [List.length_nil]; omega)
      simp only [stepBy, List.length_nil] at h2 ⊢
      omega
    | succ N ih =>
      intro l hl
      cases l with
      | nil =>
        have h2 : ((0 : Nat) + n - 1) / n = 0 := Nat.div_eq_of_lt (by omega)
        simp only [stepBy, List.length_nil]
        omega
      | cons x xs =>
        simp only [stepBy, List.length_cons]
        have hrec : (xs.drop (n - 1)).length ≤ N := by
          simp only [List.length_drop]
          simp only [List.length_cons] at hl
          omega
        rw [ih (xs.drop (n - 1)) hrec]
        simp only [List.length_drop]
        rcases Nat.lt_or_ge xs.length (n - 1) with hc | hc
        · have h1 : xs.length - (n - 1) + n - 1 = n - 1 := by omega
          have h2 : (n - 1) / n = 0 := Nat.div_eq_of_lt (by omega)
          have h3 : xs.length + 1 + n - 1 = xs.length + n := by omega
          have h4 : xs.length / n = 0 := Nat.div_eq_of_lt (by omega)
          rw [h1, h2, h3, Nat.add_div_right _ hn, h4]
        · have h1 : xs.length - (n - 1) + n - 1 = xs.length := by omega
          have h3 : xs.length + 1 + n - 1 = xs.length + n := by omega
          rw [h1, h3, Nat.add_div_right _ hn]
  intro l
  exact main l.length l (Nat.le_refl _)

/-- C9: MicrophoneRender::render correctly deinterleaves frame-major hardware
data: the produced AudioBuffer has exactly number_of_channels channels,
channel c contains, in order, the converted samples data[c],
data[c + N], data[c + 2N], ..., and when N divides data.length all channels
have the equal length data.length / N. -/
theorem micRender_deinterleave_correct {S : Type} (r : MicrophoneRender)
    (toF32 : S → ℚ) (data : List S) :
    (r.renderBuffer toF32 data).channels.length = r.number_of_channels ∧
    ∀ c, c < r.number_of_channels → ∃ ch,
      (r.renderBuffer toF32 data).channels[c]? = some ch ∧
      (∀ j : Nat, ch[j]? =
        (data[c + j * r.number_of_channels]?).map toF32) ∧
      (r.number_of_channels ∣ data.length →
        ch.length = data.length / r.number_of_channels) := by
  constructor
  · simp [MicrophoneRender.renderBuffer, AudioBuffer.from_channels,
      MicrophoneRender.renderChannels]
  · intro c hc
    have hn : 0 < r.number_of_channels := Nat.lt_of_le_of_lt (Nat.zero_le c) hc
    refine ⟨(stepBy r.number_of_channels (data.drop c)).map toF32, ?_, ?_, ?_⟩
    · simp only [MicrophoneRender.renderBuffer, AudioBuffer.from_channels,
        MicrophoneRender.renderChannels]
      rw [List.getElem?_map, List.getElem?_range hc]
      rfl
    · intro j
      rw [List.getElem?_map, stepBy_getElem? _ hn, List.getElem?_drop]
    · intro hdvd
      rw [List.length_map, stepBy_length _ hn, List.length_drop]
      obtain ⟨m, hm⟩ := hdvd
      rw [hm]
      cases m with
      | zero =>
        have h0 : r.number_of_channels * 0 - c + r.number_of_channels - 1 =
            r.number_of_channels - 1 := by omega
        rw [h0, Nat.mul_zero, Nat.zero_div, Nat.div_eq_of_lt (by omega)]
      | succ k =>
        have hle : r.number_of_channels ≤ r.number_of_channels * (k + 1) :=
          Nat.le_mul_of_pos_right _ (Nat.succ_pos k)
        have harith : r.number_of_channels * (k + 1) - c +
            r.number_of_channels - 1 = r.number_of_channels * (k + 1) +
            (r.number_of_channels - 1 - c) := by omega
        rw [harith, Nat.mul_add_div hn,
          Nat.div_eq_of_lt (show r.number_of_channels - 1 - c <
            r.number_of_channels by omega),
          Nat.mul_div_cancel_left _ hn]

/-- Witness for C9 at a concrete render: 2 channels, 4 interleaved samples,
channel 0. -/
theorem micRender_deinterleave_correct_witness :
    ((0 : Nat) < 2) ∧ ∃ ch,
      ((MicrophoneRender.mk 2 48000).renderBuffer id
        [(1 : ℚ), 2, 3, 4]).channels[(0 : Nat)]? = some ch ∧
      (∀ j : Nat, ch[j]? = ([(1 : ℚ), 2, 3, 4][0 + j * 2]?).map id) ∧
      (2 ∣ ([(1 : ℚ), 2, 3, 4] : List ℚ).length →
        ch.length = ([(1 : ℚ), 2, 3, 4] : List ℚ).length / 2) :=
  ⟨Nat.zero_lt_two, (micRender_deinterleave_correct
    (MicrophoneRender.mk 2 48000) id [(1 : ℚ), 2, 3, 4]).2 0 Nat.zero_lt_two⟩

/-- Helper: when both output slices are long enough, the response-writing loop
started at index i succeeds, preserves lengths and indices below i, and writes
every entry i, i+1, ..., i + frequency-count - 1. -/
theorem writeResponses_complete (resp : ℚ → ℚ × ℚ) :
    ∀ (fs : List ℚ) (i : Nat) (mag phase : List ℚ),
      i + fs.length ≤ mag.length → i + fs.length ≤ phase.length →
      ∃ m p, writeResponses resp i fs mag phase = some (m, p) ∧
        m.length = mag.length ∧ p.length = phase.length ∧
        (∀ j, j < i → m[j]? = mag[j]? ∧ p[j]? = phase[j]?) ∧
        (∀ j, j < fs.length →
          m[i + j]? = some (resp (fs.getD j 0)).1 ∧
          p[i + j]? = some (resp (fs.getD j 0)).2) := by
  intro fs
  induction fs with
  | nil =>
    intro i mag phase hm hp
    refine ⟨mag, phase, by simp [writeResponses], rfl, rfl, ?_, ?_⟩
    · intro j hj
      exact ⟨rfl, rfl⟩
    · intro j hj
      exact absurd hj (Nat.not_lt_zero j)
  | cons f fs ih =>
    intro i mag phase hm hp
    have him : i < mag.length := by
      simp only [List.length_cons] at hm
      omega
    have hip : i < phase.length := by
      simp only [List.length_cons] at hp
      omega
    have hm2 : (i + 1) + fs.length ≤ (mag.set i (resp f).1).length := by
      simp only [List.length_set]
      simp only [List.length_cons] at hm
      omega
    have hp2 : (i + 1) + fs.length ≤ (phase.set i (resp f).2).length := by
      simp only [List.length_set]
      simp only [List.length_cons] at hp
      omega
    obtain ⟨m, p, heq, hlm, hlp, hpre, hwr⟩ :=
      ih (i + 1) (mag.set i (resp f).1) (phase.set i (resp f).2) hm2 hp2
    refine ⟨m, p, ?_, ?_, ?_, ?_, ?_⟩
    · simp only [writeResponses, setAt, him, hip, if_true, reduceIte]
      exact heq
    · rw [hlm, List.length_set]
    · rw [hlp, List.length_set]
    · intro j hj
      have h1 := hpre j (by omega)
      refine ⟨?_, ?_⟩
      · rw [h1.1, List.getElem?_set_ne (show i ≠ j by omega)]
      · rw [h1.2, List.getElem?_set_ne (show i ≠ j by omega)]
    · intro j hj
      cases j with
      | zero =>
        have h1 := hpre i (by omega)
        refine ⟨?_, ?_⟩
        · rw [Nat.add_zero, h1.1, List.getElem?_set_self him]
          simp
        · rw [Nat.add_zero, h1.2, List.getElem?_set_self hip]
          simp
      | succ j =>
        have hj2 : j < fs.length := by
          simp only [List.length_cons] at hj
          omega
        have h2 := hwr j hj2
        have hidx : i + (j + 1) = (i + 1) + j := by omega
        refine ⟨?_, ?_⟩
        · rw [hidx, h2.1]
          simp
        · rw [hidx, h2.2]
          simp

/-- Helper: when the frequency list is nonempty and either output slice is too
short for it, the response-writing loop hits an out-of-bounds index and
panics. -/
theorem writeResponses_oob (resp : ℚ → ℚ × ℚ) :
    ∀ (fs : List ℚ) (i : Nat) (mag phase : List ℚ),
      fs ≠ [] →
      (mag.length < i + fs.length ∨ phase.length < i + fs.length) →
      writeResponses resp i fs mag phase = none := by
  intro fs
  induction fs with
  | nil =>
    intro i mag phase hne _
    exact absurd rfl hne
  | cons f fs ih =>
    intro i mag phase _ hlt
    by_cases him : i < mag.length
    · by_cases hip : i < phase.length
      · have hne2 : fs ≠ [] := by
          intro h
          subst h
          simp only [List.length_cons, List.length_nil] at hlt
          omega
        have hlt2 : (mag.set i (resp f).1).length < (i + 1) + fs.length ∨
            (phase.set i (resp f).2).length < (i + 1) + fs.length := by
          simp only [List.length_set]
          simp only [List.length_cons] at hlt
          omega
        simp only [writeResponses, setAt, him, hip, if_true, reduceIte]
        exact ih (i + 1) _ _ hne2 hlt2
      · simp [writeResponses, setAt, him, hip]
    · simp [writeResponses, setAt, him]

/-- C10: IirFilterNode::get_frequency_response writes mag_response[i] and
phase_response[i] for every index i below frequency_hz.len(); when both
output slices are at least as long as frequency_hz every such entry is
written in bounds, and when either slice is shorter the call panics with an
out-of-bounds index, a precondition the public interface does not check. -/
theorem freqResponse_write_bounds (resp : ℚ → ℚ × ℚ)
    (frequency_hz mag phase : List ℚ) :
    (frequency_hz.length ≤ mag.length → frequency_hz.length ≤ phase.length →
      ∃ m p, IirFilterNode.get_frequency_response resp frequency_hz mag phase
          = some (m, p) ∧
        m.length = mag.length ∧ p.length = phase.length ∧
        ∀ i, i < frequency_hz.length →
          m[i]? = some (resp (frequency_hz.getD i 0)).1 ∧
          p[i]? = some (resp (frequency_hz.getD i 0)).2) ∧
    ((mag.length < frequency_hz.length ∨ phase.length < frequency_hz.length) →
      IirFilterNode.get_frequency_response resp frequency_hz mag phase
        = none) := by
  constructor
  · intro hm hp
    obtain ⟨m, p, heq, hlm, hlp, _, hwr⟩ :=
      writeResponses_complete resp frequency_hz 0 mag phase (by omega)
        (by omega)
    refine ⟨m, p, heq, hlm, hlp, ?_⟩
    intro i hi
    have h2 := hwr i hi
    constructor
    · rw [← h2.1]
      simp
    · rw [← h2.2]
      simp
  · intro hlt
    have hne : frequency_hz ≠ [] := by
      intro h
      subst h
      simp only [List.length_nil] at hlt
      omega
    exact writeResponses_oob resp frequency_hz 0 mag phase hne (by omega)

/-- Witness for C10 at concrete slices: two frequencies with long-enough and
too-short output slices. -/
theorem freqResponse_write_bounds_witness :
    (([(1 : ℚ), 2] : List ℚ).length ≤ ([(0 : ℚ), 0, 0] : List ℚ).length) ∧
    (∃ m p, IirFilterNode.get_frequency_response (fun f => (f, f))
        [(1 : ℚ), 2] [(0 : ℚ), 0, 0] [(0 : ℚ), 0, 0] = some (m, p) ∧
      m.length = ([(0 : ℚ), 0, 0] : List ℚ).length ∧
      p.length = ([(0 : ℚ), 0, 0] : List ℚ).length ∧
      ∀ i, i < ([(1 : ℚ), 2] : List ℚ).length →
        m[i]? = some (((fun f => (f, f)) (([(1 : ℚ), 2]).getD i 0)).1) ∧
        p[i]? = some (((fun f => (f, f)) (([(1 : ℚ), 2]).getD i 0)).2)) ∧
    (([(0 : ℚ)] : List ℚ).length < ([(1 : ℚ), 2] : List ℚ).length) ∧
    IirFilterNode.get_frequency_response (fun f => (f, f)) [(1 : ℚ), 2]
      [(0 : ℚ)] [(0 : ℚ), 0, 0] = none :=
  ⟨by simp, (freqResponse_write_bounds (fun f => (f, f)) [(1 : ℚ), 2]
      [(0 : ℚ), 0, 0] [(0 : ℚ), 0, 0]).1 (by simp) (by simp),
    by simp,
    (freqResponse_write_bounds (fun f => (f, f)) [(1 : ℚ), 2] [(0 : ℚ)]
      [(0 : ℚ), 0, 0]).2 (Or.inl (by simp))⟩
